import Mathlib

/-
Verification development for the incremental cache-refresh job engine of the
ff14-crafting-and-gathering-cache repository.

The embedding translates the code of `src/lib/universalis_data.py` (the
current-market-price variant of the fetch/merge engine, `get_current_item_data`
and `pull_current_item_data` / `pull_historical_item_data`),
`src/lib/scraping_utils.py` (as an oracle interface), and the job-registry
result handlers of `src/lib/web_services.py`.

Modelling conventions:
 * Timestamps are UTC instants in whole seconds, represented as `Int`.
   `datetime.now()` is modelled by a clock oracle `clock : Nat → Int`; the
   i-th call of the run to `now()` returns `clock i` (`time.time()` writes to
   the unused `last_update` field only, which no claim concerns; it is not
   modelled).
 * Durations and averages are `ℚ` (the Python floats carry exact DB values
   and the claims are about the arithmetic recurrence, not rounding).
 * `make_get_request` plus `.json()` is an oracle `http : String → Option α`
   mapping a URL to `none` (request failed after retries / non-200, in which
   case the pull function returns the empty dict) or `some` of the decoded
   body.  A decoded current-market body is `CurrentJson`; JSON string keys
   that denote item ids are modelled as the numbers they denote (`str` is
   injective on ints, and keys that denote no requested id are never looked
   up by the merge loop).
 * Python dicts are association lists in insertion order; `d[k] = v` is
   `dinsert` (replace in place or append), `k in d` / `d[k]` is `List.lookup`.
 * The SQLAlchemy session is modelled by explicit state: the
   `ItemMarketDataCurrent` table is a `List ItemMarketDataCurrent`, the
   `OverallScrapingData` row an `Option OverallScrapingData`.  `session.add`
   plus the single final `session.commit()` become the updated state returned
   on success; when the generator raises (ZeroDivisionError at the counter
   update, or the commit itself failing, modelled by `commitFails`), the
   session context closes without commit and the returned state is the
   original one, and no further snapshot is yielded.
-/

/-! ## Python dict primitives -/

/-- Python `d[k] = v` on an insertion-ordered dict: replace the value of an
existing key in place, otherwise append the new binding at the end. -/
def dinsert {α : Type} (k : Nat) (v : α) : List (Nat × α) → List (Nat × α)
  | [] => [(k, v)]
  | (k', v') :: rest => if k' = k then (k, v) :: rest else (k', v') :: dinsert k v rest

/-! ## Constants (src/lib/constants.py) -/

def UNIVERSALIS_API_BASE_URL : String := "https://universalis.app/api/v2/"

def HISTORICAL_DATA_PATH : String := "history"

def CURRENT_ITEM_MARKET_DATA_SCHEDULE_IN_HOURS : Int := 1

def HISTORICAL_ITEM_MARKET_DATA_SCHEDULE_IN_DAYS : Int := 1

/-- TTL of current market data in seconds: `timedelta(hours=CURRENT_ITEM_MARKET_DATA_SCHEDULE_IN_HOURS)`
(universalis_data.py lines 84-85). -/
def currentTtlSeconds : Int := CURRENT_ITEM_MARKET_DATA_SCHEDULE_IN_HOURS * 3600

/-! ## Staleness (universalis_data.py lines 83-88, xivapi_data.py lines 59-63) -/

/-- Staleness classification as the engine performs it.  A key with no cache
row never reaches the comparison and simply stays in `unhandled_ids`
(pending), which is the `none` case here; a row is compared by
`result.last_data_pull.astimezone(utc) < now - timedelta(TTL)`. -/
def is_stale (last_refreshed_at : Option Int) (now ttl : Int) : Bool :=
  match last_refreshed_at with
  | none => true
  | some t => t < now - ttl

/-- Modelled from the spec's words (§4.1), for comparison with `is_stale`:
"true if `last_refreshed_at` is unset, or `now - last_refreshed_at >= TTL(kind)`". -/
def is_stale_spec (last_refreshed_at : Option Int) (now ttl : Int) : Bool :=
  match last_refreshed_at with
  | none => true
  | some t => now - t ≥ ttl

/-! ## Batcher (universalis_data.py lines 102-105 and 255-258) -/

/-- One step of
`sets_of_a_hundred = [unhandled_ids.copy()]; while len(sets_of_a_hundred[-1]) > 100: sets_of_a_hundred.append(sets_of_a_hundred[-1][100:])`.
The loop drops 100 keys per iteration, so `l.length` iterations of fuel are
always sufficient: the fuel-exhausted base case is unreachable while the
`while` condition still holds. -/
def batchTailsAux : Nat → List Nat → List (List Nat)
  | 0, l => [l]
  | n + 1, l => if l.length > 100 then l :: batchTailsAux n (l.drop 100) else [l]

/-- The batch list the engine iterates over: the list itself followed by its
suffixes after dropping 100 keys at a time, until a suffix of at most 100
keys remains.  (Note: the source never truncates a batch to its first 100
keys, so the earlier batches keep their full length.) -/
def batchTails (l : List Nat) : List (List Nat) :=
  batchTailsAux l.length l

/-! ## Upstream pulls (universalis_data.py lines 31-51 and 176-196) -/

/-- URL built by `pull_current_item_data` (single-id vs. comma-joined form;
`UNIVERSALIS_API_BASE_URL` ends in a slash, so the f-string yields a double
slash, reproduced faithfully). -/
def currentDataUrl (world : String) (item_ids : List Nat) : String :=
  if item_ids.length = 1 then
    UNIVERSALIS_API_BASE_URL ++ "/" ++ world ++ "/" ++ toString (item_ids.headD 0)
  else
    UNIVERSALIS_API_BASE_URL ++ "/" ++ world ++ "/" ++
      String.intercalate "," (item_ids.map (fun i => toString i))

/-- URL built by `pull_historical_item_data`. -/
def historicalDataUrl (world : String) (item_ids : List Nat) : String :=
  if item_ids.length = 1 then
    UNIVERSALIS_API_BASE_URL ++ "/" ++ HISTORICAL_DATA_PATH ++ "/" ++ world ++ "/" ++
      toString (item_ids.headD 0) ++ "?entriesWithin=2592000"
  else
    UNIVERSALIS_API_BASE_URL ++ "/" ++ HISTORICAL_DATA_PATH ++ "/" ++ world ++ "/" ++
      String.intercalate "," (item_ids.map (fun i => toString i)) ++ "?entriesWithin=2592000"

/-- `pull_current_item_data(world, item_ids)`: empty id list returns the
empty dict at once; otherwise one GET request is issued for the built URL.
The result is the decoded JSON body, with `none` standing for the empty dict
`{}` returned on request failure.  The second component is the list of URLs
actually requested (empty for the short-circuit). -/
def pull_current_item_data {α : Type} (http : String → Option α) (world : String)
    (item_ids : List Nat) : Option α × List String :=
  if item_ids.length = 0 then (none, [])
  else
    let url := currentDataUrl world item_ids
    (http url, [url])

/-- `pull_historical_item_data(world, item_ids)`: same shape as the current
variant, against the history endpoint. -/
def pull_historical_item_data {α : Type} (http : String → Option α) (world : String)
    (item_ids : List Nat) : Option α × List String :=
  if item_ids.length = 0 then (none, [])
  else
    let url := historicalDataUrl world item_ids
    (http url, [url])

/-! ## Performance counter (universalis_data.py lines 143-169) -/

/-- The two fields of the `OverallScrapingData` row the current-market engine
reads and writes.  `none` models a SQL NULL. -/
structure OverallScrapingData where
  average_item_market_pull_time_in_seconds : Option ℚ
  total_item_market_pulls : Option Nat
deriving DecidableEq

/-- Python truthiness of an optional float: `None` and `0.0` are falsy. -/
def truthyQ : Option ℚ → Bool
  | none => false
  | some a => a != 0

/-- Python truthiness of an optional count: `None` and `0` are falsy. -/
def truthyN : Option Nat → Bool
  | none => false
  | some n => n != 0

/-- The counter update at job finalization (universalis_data.py lines
143-169).  With no row present a fresh row is created holding the whole
operation duration as the average and the requested-key count as the total;
with a row present the weighted total duration is rebuilt (treating a falsy
average or total as zero accumulated duration), the total is bumped by the
requested-key count, and the average recomputed.  The result `none` models
the `ZeroDivisionError` raised when the bumped total is zero. -/
def updateScrapingData (osd : Option OverallScrapingData) (operation_duration : ℚ)
    (n_requested : Nat) : Option OverallScrapingData :=
  match osd with
  | none => some ⟨some operation_duration, some n_requested⟩
  | some d =>
      let total_duration : ℚ :=
        (if truthyQ d.average_item_market_pull_time_in_seconds &&
            truthyN d.total_item_market_pulls then
          d.average_item_market_pull_time_in_seconds.getD 0 *
            (d.total_item_market_pulls.getD 0 : Nat)
        else 0) + operation_duration
      let total0 : Nat :=
        if truthyN d.total_item_market_pulls then d.total_item_market_pulls.getD 0 else 0
      let newTotal : Nat := total0 + n_requested
      if newTotal = 0 then none
      else some ⟨some (total_duration / (newTotal : ℚ)), some newTotal⟩

/-- Modelled from the spec's words (§3), for comparison with
`updateScrapingData`: `new_avg = (old_avg * old_total + this_operation_duration)
/ (old_total + this_operation_count)`, treating an unset old average or old
total as zero accumulated duration (and an unset old total as 0 in the
denominator). -/
def specRecurrenceAvg (oldAvg : Option ℚ) (oldTotal : Option Nat) (dur : ℚ)
    (n : Nat) : ℚ :=
  (oldAvg.getD 0 * (oldTotal.getD 0 : Nat) + dur) / ((oldTotal.getD 0 : Nat) + n : ℚ)

/-! ## Engine state (universalis_data.py `get_current_item_data`, lines 54-173) -/

/-- One row of the `ItemMarketDataCurrent` table, with the fields the engine
reads and writes. -/
structure ItemMarketDataCurrent where
  ffxiv_id : Nat
  world : String
  current_min_price_nq : Int
  last_data_pull : Int
deriving DecidableEq

/-- A decoded current-market JSON body.  `minPriceNQ` is the field the merge
reads from a single-id (flat) response; `items` is the key → `minPriceNQ`
mapping read from a multi-id response (each value dict is represented by the
one field the code reads from it). -/
structure CurrentJson where
  minPriceNQ : Int
  items : List (Nat × Int)
deriving DecidableEq

/-- The `output` dict as published at a `yield` point (a progress snapshot).
`estimated_operation_time` is `none` for `math.inf`; items values are the
`current_min_price_nq` field of the value dict. -/
structure Snapshot where
  complete : Bool
  estimated_operation_time : Option ℚ
  operation_time_so_far : Int
  items : List (Nat × Int)
deriving DecidableEq

/-- State threaded through the classification loop (lines 82-92):
pending ids, ids with a stale row, the satisfied items so far, and the next
clock index. -/
structure ClassifyState where
  unhandled : List Nat
  stale : List Nat
  items : List (Nat × Int)
  k : Nat
deriving DecidableEq

/-- Classification loop over the queried rows (lines 82-92): per row one
`now()` call; a stale row's id is remembered in `stale_ids`, a fresh row's id
is removed from `unhandled_ids` and its payload added to `items`. -/
def classifyLoop (clock : Nat → Int) :
    List ItemMarketDataCurrent → ClassifyState → ClassifyState
  | [], st => st
  | e :: rest, st =>
    let now := clock st.k
    if is_stale (some e.last_data_pull) now currentTtlSeconds then
      classifyLoop clock rest ⟨st.unhandled, st.stale ++ [e.ffxiv_id], st.items, st.k + 1⟩
    else
      classifyLoop clock rest
        ⟨st.unhandled.erase e.ffxiv_id, st.stale,
         dinsert e.ffxiv_id e.current_min_price_nq st.items, st.k + 1⟩

/-- State threaded through the batch-and-fetch loop (lines 106-117). -/
structure FetchState where
  snaps : List Snapshot
  total_data : List (Nat × Int)
  requests : List String
  k : Nat
  lastElapsed : Int
deriving DecidableEq

/-- Batch-and-fetch loop (lines 106-117): per batch, one `now()` call sets
`operation_time_so_far = now - start_of_operation`, the snapshot is yielded,
then the batch is pulled.  A truthy (non-empty) response is folded into
`total_data`: when the whole pending list has exactly one id the flat body is
stored under that id, otherwise the body's `items` mapping is copied in. -/
def fetchLoop (http : String → Option CurrentJson) (world : String) (clock : Nat → Int)
    (startOp : Int) (est : Option ℚ) (baseItems : List (Nat × Int))
    (unhandled : List Nat) :
    List (List Nat) → Nat → List (Nat × Int) → List String → Int → FetchState
  | [], k, td, reqs, lastE => ⟨[], td, reqs, k, lastE⟩
  | batch :: rest, k, td, reqs, _lastE =>
    let elapsed := clock k - startOp
    let snap : Snapshot := ⟨false, est, elapsed, baseItems⟩
    let pulled := pull_current_item_data http world batch
    let td' :=
      match pulled.1 with
      | none => td
      | some j =>
        if unhandled.length = 1 then dinsert (unhandled.headD 0) j.minPriceNQ td
        else j.items.foldl (fun acc kv => dinsert kv.1 kv.2 acc) td
    let st := fetchLoop http world clock startOp est baseItems unhandled rest
      (k + 1) td' (reqs ++ pulled.2) elapsed
    ⟨snap :: st.snaps, st.total_data, st.requests, st.k, st.lastElapsed⟩

/-- Replace the first list element satisfying `p` by its image under `f`
(SQLAlchemy `.filter(...).first()` followed by in-place mutation). -/
def updateFirst {α : Type} (p : α → Bool) (f : α → α) : List α → List α
  | [] => []
  | e :: rest => if p e then f e :: rest else e :: updateFirst p f rest

/-- State threaded through the merge loop (lines 118-140). -/
structure MergeState where
  db : List ItemMarketDataCurrent
  items : List (Nat × Int)
  k : Nat
deriving DecidableEq

/-- Merge loop (lines 118-140): each pending id that the accumulated
`total_data` resolves gets one `now()` call and either a freshly inserted row
(id was missing) or an in-place update of its existing stale row, and its
value is added to the job's `items`. -/
def mergeLoop (world : String) (clock : Nat → Int) (td : List (Nat × Int))
    (stale : List Nat) : List Nat → MergeState → MergeState
  | [], st => st
  | uid :: rest, st =>
    match td.lookup uid with
    | none => mergeLoop world clock td stale rest st
    | some price =>
      let now := clock st.k
      let db' :=
        if uid ∈ stale then
          updateFirst (fun e => e.ffxiv_id == uid && e.world == world)
            (fun e => { e with last_data_pull := now, current_min_price_nq := price }) st.db
        else
          st.db ++ [⟨uid, world, price, now⟩]
      mergeLoop world clock td stale rest ⟨db', dinsert uid price st.items, st.k + 1⟩

/-- The rows returned by the classify query (lines 70-74): rows of the
current-market table whose id is among the requested ids and whose world
matches, in table order. -/
def resultsFor (db : List ItemMarketDataCurrent) (world : String)
    (item_ids : List Nat) : List ItemMarketDataCurrent :=
  db.filter (fun e => decide (e.ffxiv_id ∈ item_ids) && e.world == world)

/-- The outcome of one full generator run as driven by
`MarketCurrentHandler.get_async_portion`: every snapshot published to the job
registry in order, the table and counter row after the run (the originals
when the run raised before/at commit), the URLs requested upstream, the
operation duration computed at finalization (`none` when never reached), and
whether the generator raised instead of returning. -/
structure EngineResult where
  snapshots : List Snapshot
  db : List ItemMarketDataCurrent
  osd : Option OverallScrapingData
  requests : List String
  duration : Option ℚ
  raised : Bool
deriving DecidableEq

/-- Finalization (lines 141-172): compute the operation duration, run the
counter update (a `none` result is the `ZeroDivisionError` raised there),
commit (a failing commit is the store becoming unavailable), then set
`complete` and yield the terminal snapshot.  When an exception is raised the
generator dies after the snapshots already yielded and the session closes
without committing. -/
def finalizeRun (snap0 : Snapshot) (fst' : FetchState) (mst : MergeState)
    (db : List ItemMarketDataCurrent) (osd : Option OverallScrapingData)
    (est : Option ℚ) (dur : ℚ) (n_requested : Nat) (commitFails : Bool) : EngineResult :=
  match updateScrapingData osd dur n_requested with
  | none => ⟨snap0 :: fst'.snaps, db, osd, fst'.requests, some dur, true⟩
  | some osd' =>
    if commitFails then ⟨snap0 :: fst'.snaps, db, osd, fst'.requests, some dur, true⟩
    else
      ⟨snap0 :: (fst'.snaps ++ [⟨true, est, fst'.lastElapsed, mst.items⟩]),
        mst.db, some osd', fst'.requests, some dur, false⟩

/-- `get_current_item_data(world, item_ids, engine)` (lines 54-173) as one
pure function over the session state, the upstream oracle and the clock.
`commitFails` injects an `OperationalError` at the final `session.commit()`
(the cache store becoming unavailable). -/
def get_current_item_data (world : String) (item_ids : List Nat)
    (db : List ItemMarketDataCurrent) (osd : Option OverallScrapingData)
    (http : String → Option CurrentJson) (clock : Nat → Int)
    (commitFails : Bool) : EngineResult :=
  let results := resultsFor db world item_ids
  let cst := classifyLoop clock results ⟨item_ids, [], [], 0⟩
  let startOp := clock cst.k
  let est : Option ℚ :=
    match osd with
    | none => none
    | some d =>
      if truthyQ d.average_item_market_pull_time_in_seconds &&
          truthyN d.total_item_market_pulls then
        some (d.average_item_market_pull_time_in_seconds.getD 0 * (cst.unhandled.length : Nat))
      else none
  let snap0 : Snapshot := ⟨false, est, 0, cst.items⟩
  let batches := batchTails cst.unhandled
  let fst' := fetchLoop http world clock startOp est cst.items cst.unhandled
    batches (cst.k + 1) [] [] 0
  let mst := mergeLoop world clock fst'.total_data cst.stale cst.unhandled
    ⟨db, cst.items, fst'.k⟩
  let endOp := clock mst.k
  let dur : ℚ := ((endOp - startOp : Int) : ℚ)
  finalizeRun snap0 fst' mst db osd est dur item_ids.length commitFails

/-! ## Job registry result handler (web_services.py lines 153-167 and 236-251) -/

/-- `MarketCurrentResultHandler.get` / `ItemsResultHandler.get`: an unknown
job id is a 404 (`none`); otherwise the snapshot's full `items` mapping is
written, and if the snapshot is complete the job is deleted from the
registry. -/
def resultHandlerGet (jobs : List (String × Snapshot)) (job_id : String) :
    Option (List (Nat × Int)) × List (String × Snapshot) :=
  match jobs.lookup job_id with
  | none => (none, jobs)
  | some st =>
    (some st.items, if st.complete then jobs.filter (fun p => !(p.1 == job_id)) else jobs)

/-! ## Helper lemmas -/

theorem dinsert_keys_mono {α : Type} (k : Nat) (v : α) (a : Nat) :
    ∀ l : List (Nat × α), a ∈ l.map Prod.fst → a ∈ (dinsert k v l).map Prod.fst := by
  intro l
  induction l with
  | nil => simp
  | cons hd tl ih =>
    rcases hd with ⟨k', v'⟩
    by_cases hk : k' = k
    · subst hk
      simp [dinsert]
    · simp only [dinsert, if_neg hk, List.map_cons, List.mem_cons]
      rintro (h | h)
      · exact Or.inl h
      · exact Or.inr (ih h)

theorem mergeLoop_items_keys_mono (world : String) (clock : Nat → Int)
    (td : List (Nat × Int)) (stale : List Nat) (a : Nat) :
    ∀ (ids : List Nat) (st : MergeState), a ∈ st.items.map Prod.fst →
      a ∈ (mergeLoop world clock td stale ids st).items.map Prod.fst := by
  intro ids
  induction ids with
  | nil => intro st h; exact h
  | cons uid rest ih =>
    intro st h
    simp only [mergeLoop]
    cases htd : td.lookup uid with
    | none => exact ih st h
    | some price => exact ih _ (dinsert_keys_mono _ _ _ _ h)

theorem mergeLoop_td_nil (world : String) (clock : Nat → Int) (stale : List Nat) :
    ∀ (ids : List Nat) (st : MergeState), mergeLoop world clock [] stale ids st = st := by
  intro ids
  induction ids with
  | nil => intro st; rfl
  | cons uid rest ih => intro st; simp [mergeLoop, ih]

theorem fetchLoop_snaps_eq (http : String → Option CurrentJson) (world : String)
    (clock : Nat → Int) (startOp : Int) (est : Option ℚ) (baseItems : List (Nat × Int))
    (unhandled : List Nat) :
    ∀ (batches : List (List Nat)) (k : Nat) (td : List (Nat × Int))
      (reqs : List String) (lastE : Int),
      (fetchLoop http world clock startOp est baseItems unhandled batches k td reqs lastE).snaps
        = (List.range batches.length).map
            (fun i => ⟨false, est, clock (k + i) - startOp, baseItems⟩) := by
  intro batches
  induction batches with
  | nil => intro k td reqs lastE; rfl
  | cons b rest ih =>
    intro k td reqs lastE
    simp only [fetchLoop]
    rw [ih, List.length_cons, List.range_succ_eq_map, List.map_cons, List.map_map]
    congr 1
    apply List.map_congr_left
    intro i _
    have h1 : k + 1 + i = k + Nat.succ i := by omega
    simp [Function.comp, h1]

theorem fetchLoop_lastElapsed_eq (http : String → Option CurrentJson) (world : String)
    (clock : Nat → Int) (startOp : Int) (est : Option ℚ) (baseItems : List (Nat × Int))
    (unhandled : List Nat) :
    ∀ (batches : List (List Nat)) (k : Nat) (td : List (Nat × Int))
      (reqs : List String) (lastE : Int), batches ≠ [] →
      (fetchLoop http world clock startOp est baseItems unhandled batches k td reqs
          lastE).lastElapsed
        = clock (k + (batches.length - 1)) - startOp := by
  intro batches
  induction batches with
  | nil => intro k td reqs lastE h; exact absurd rfl h
  | cons b rest ih =>
    intro k td reqs lastE _
    by_cases hne : rest = []
    · subst hne; simp [fetchLoop]
    · simp only [fetchLoop, List.length_cons]
      rw [ih _ _ _ _ hne]
      have hlen : rest.length ≠ 0 := by
        simpa [List.length_eq_zero] using hne
      have h2 : k + 1 + (rest.length - 1) = k + (rest.length + 1 - 1) := by omega
      rw [h2]

theorem batchTailsAux_ne_nil (n : Nat) (l : List Nat) : batchTailsAux n l ≠ [] := by
  cases n with
  | zero => simp [batchTailsAux]
  | succ m =>
    by_cases h : l.length > 100 <;> simp [batchTailsAux, h]

theorem batchTails_ne_nil (l : List Nat) : batchTails l ≠ [] :=
  batchTailsAux_ne_nil l.length l

theorem updateScrapingData_some_eq (d : OverallScrapingData) (dur : ℚ) (n : Nat)
    (h : d.total_item_market_pulls.getD 0 + n ≠ 0) :
    updateScrapingData (some d) dur n =
      some ⟨some (specRecurrenceAvg d.average_item_market_pull_time_in_seconds
                    d.total_item_market_pulls dur n),
            some (d.total_item_market_pulls.getD 0 + n)⟩ := by
  rcases d with ⟨avg, tot⟩
  rcases tot with _ | m
  · rcases avg with _ | a <;>
      simp [updateScrapingData, specRecurrenceAvg, truthyQ, truthyN] at h ⊢ <;>
      simp [h]
  · by_cases hm : m = 0
    · subst hm
      rcases avg with _ | a <;>
        simp [updateScrapingData, specRecurrenceAvg, truthyQ, truthyN] at h ⊢ <;>
        simp [h]
    · rcases avg with _ | a
      · simp [updateScrapingData, specRecurrenceAvg, truthyQ, truthyN, hm, h]
      · by_cases ha : a = 0
        · subst ha
          simp [updateScrapingData, specRecurrenceAvg, truthyQ, truthyN, hm, h]
        · simp [updateScrapingData, specRecurrenceAvg, truthyQ, truthyN, hm, ha, h]

theorem lookup_filter_out (jid : String) :
    ∀ jobs : List (String × Snapshot),
      (jobs.filter (fun p => !(p.1 == jid))).lookup jid = none := by
  intro jobs
  induction jobs with
  | nil => rfl
  | cons hd tl ih =>
    by_cases hh : hd.1 = jid
    · simp [List.filter_cons, hh, ih]
    · have h1 : (hd.1 == jid) = false := beq_eq_false_iff_ne.mpr hh
      have h2 : (jid == hd.1) = false := beq_eq_false_iff_ne.mpr (Ne.symm hh)
      cases hd with
      | mk a b =>
        simp only [List.filter_cons] at *
        simp [List.lookup, h1, h2, ih]

theorem updateScrapingData_isSome (osd : Option OverallScrapingData) (dur : ℚ)
    (n : Nat) (hn : n ≠ 0) : (updateScrapingData osd dur n).isSome = true := by
  rcases osd with _ | d
  · rfl
  · simp only [updateScrapingData]
    have : (if truthyN d.total_item_market_pulls then
        d.total_item_market_pulls.getD 0 else 0) + n ≠ 0 := by omega
    simp [this]

theorem finalizeRun_ok (snap0 : Snapshot) (fst' : FetchState) (mst : MergeState)
    (db : List ItemMarketDataCurrent) (osd : Option OverallScrapingData)
    (est : Option ℚ) (dur : ℚ) (n : Nat) (hn : n ≠ 0) :
    (finalizeRun snap0 fst' mst db osd est dur n false).duration = some dur ∧
    (finalizeRun snap0 fst' mst db osd est dur n false).raised = false ∧
    (finalizeRun snap0 fst' mst db osd est dur n false).osd = updateScrapingData osd dur n ∧
    (finalizeRun snap0 fst' mst db osd est dur n false).db = mst.db ∧
    (finalizeRun snap0 fst' mst db osd est dur n false).requests = fst'.requests ∧
    (finalizeRun snap0 fst' mst db osd est dur n false).snapshots =
      snap0 :: (fst'.snaps ++ [⟨true, est, fst'.lastElapsed, mst.items⟩]) := by
  have h := updateScrapingData_isSome osd dur n hn
  rcases hu : updateScrapingData osd dur n with _ | x
  · rw [hu] at h; simp at h
  · simp [finalizeRun, hu]

theorem finalizeRun_snapshots_cases (snap0 : Snapshot) (fst' : FetchState)
    (mst : MergeState) (db : List ItemMarketDataCurrent)
    (osd : Option OverallScrapingData) (est : Option ℚ) (dur : ℚ) (n : Nat)
    (cf : Bool) :
    (finalizeRun snap0 fst' mst db osd est dur n cf).snapshots = snap0 :: fst'.snaps ∨
    (finalizeRun snap0 fst' mst db osd est dur n cf).snapshots =
      snap0 :: (fst'.snaps ++ [⟨true, est, fst'.lastElapsed, mst.items⟩]) := by
  rcases hu : updateScrapingData osd dur n with _ | x
  · left; simp [finalizeRun, hu]
  · cases cf
    · right; simp [finalizeRun, hu]
    · left; simp [finalizeRun, hu]

theorem resultsFor_nil (db : List ItemMarketDataCurrent) (world : String) :
    resultsFor db world [] = [] := by
  simp [resultsFor]

theorem batchTails_nil : batchTails [] = [[]] := rfl

/-- Pointwise monotonicity relation between two published snapshots: elapsed
time does not decrease and the item key set does not shrink. -/
def snapLe (a b : Snapshot) : Prop :=
  a.operation_time_so_far ≤ b.operation_time_so_far ∧
    ∀ kk ∈ a.items.map Prod.fst, kk ∈ b.items.map Prod.fst

theorem pairwise_core (clock : Nat → Int) (hclock : Monotone clock) (est : Option ℚ)
    (baseItems finalItems : List (Nat × Int)) (k0 nb : Nat)
    (hkeys : ∀ kk ∈ baseItems.map Prod.fst, kk ∈ finalItems.map Prod.fst) :
    List.Pairwise snapLe
      ((⟨false, est, 0, baseItems⟩ : Snapshot) ::
        ((List.range nb).map
            (fun i => (⟨false, est, clock (k0 + 1 + i) - clock k0, baseItems⟩ : Snapshot)) ++
          [(⟨true, est, clock (k0 + 1 + (nb - 1)) - clock k0, finalItems⟩ : Snapshot)])) := by
  apply List.Pairwise.cons
  · intro b hb
    rcases List.mem_append.mp hb with hb | hb
    · obtain ⟨i, hi, rfl⟩ := List.mem_map.mp hb
      refine ⟨?_, fun kk h => h⟩
      have h1 : clock k0 ≤ clock (k0 + 1 + i) := hclock (by omega)
      simp only [Snapshot.mk.injEq]
      omega
    · rw [List.mem_singleton] at hb
      subst hb
      refine ⟨?_, hkeys⟩
      have h1 : clock k0 ≤ clock (k0 + 1 + (nb - 1)) := hclock (by omega)
      simp only [Snapshot.mk.injEq]
      omega
  · rw [List.pairwise_append]
    refine ⟨?_, List.pairwise_singleton _ _, ?_⟩
    · refine List.Pairwise.map _ ?_ (List.pairwise_lt_range nb)
      intro i j hij
      refine ⟨?_, fun kk h => h⟩
      have h1 : clock (k0 + 1 + i) ≤ clock (k0 + 1 + j) := hclock (by omega)
      simpa using h1
    · intro a ha b hb
      obtain ⟨i, hi, rfl⟩ := List.mem_map.mp ha
      rw [List.mem_singleton] at hb
      subst hb
      rw [List.mem_range] at hi
      refine ⟨?_, fun kk h => hkeys kk h⟩
      have h1 : clock (k0 + 1 + i) ≤ clock (k0 + 1 + (nb - 1)) := hclock (by omega)
      simpa using h1

theorem get_current_item_data_eq_finalize (world : String) (item_ids : List Nat)
    (db : List ItemMarketDataCurrent) (osd : Option OverallScrapingData)
    (http : String → Option CurrentJson) (clock : Nat → Int) (cf : Bool) :
    ∃ (snap0 : Snapshot) (fst' : FetchState) (mst : MergeState) (est : Option ℚ) (dur : ℚ),
      get_current_item_data world item_ids db osd http clock cf =
        finalizeRun snap0 fst' mst db osd est dur item_ids.length cf :=
  ⟨_, _, _, _, _, rfl⟩

theorem pairwise_run (http : String → Option CurrentJson) (world : String)
    (clock : Nat → Int) (hclock : Monotone clock) (est : Option ℚ)
    (baseItems : List (Nat × Int)) (stale unhandled : List Nat)
    (db : List ItemMarketDataCurrent) (osd : Option OverallScrapingData)
    (k0 : Nat) (dur : ℚ) (n : Nat) (cf : Bool) :
    (finalizeRun ⟨false, est, 0, baseItems⟩
        (fetchLoop http world clock (clock k0) est baseItems unhandled
          (batchTails unhandled) (k0 + 1) [] [] 0)
        (mergeLoop world clock
          (fetchLoop http world clock (clock k0) est baseItems unhandled
            (batchTails unhandled) (k0 + 1) [] [] 0).total_data
          stale unhandled
          ⟨db, baseItems,
            (fetchLoop http world clock (clock k0) est baseItems unhandled
              (batchTails unhandled) (k0 + 1) [] [] 0).k⟩)
        db osd est dur n cf).snapshots.Pairwise snapLe := by
  set F := fetchLoop http world clock (clock k0) est baseItems unhandled
      (batchTails unhandled) (k0 + 1) [] [] 0 with hF
  set M := mergeLoop world clock F.total_data stale unhandled ⟨db, baseItems, F.k⟩ with hM
  have hsnaps : F.snaps = (List.range (batchTails unhandled).length).map
      (fun i => ⟨false, est, clock (k0 + 1 + i) - clock k0, baseItems⟩) := by
    rw [hF]
    exact fetchLoop_snaps_eq http world clock (clock k0) est baseItems unhandled
      (batchTails unhandled) (k0 + 1) [] [] 0
  have hlast : F.lastElapsed
      = clock (k0 + 1 + ((batchTails unhandled).length - 1)) - clock k0 := by
    rw [hF]
    exact fetchLoop_lastElapsed_eq http world clock (clock k0) est baseItems unhandled
      (batchTails unhandled) (k0 + 1) [] [] 0 (batchTails_ne_nil _)
  have hkeys : ∀ kk ∈ baseItems.map Prod.fst, kk ∈ M.items.map Prod.fst := by
    intro kk h
    rw [hM]
    exact mergeLoop_items_keys_mono world clock F.total_data stale kk unhandled
      ⟨db, baseItems, F.k⟩ h
  rcases finalizeRun_snapshots_cases ⟨false, est, 0, baseItems⟩ F M db osd est dur n cf
    with h | h
  · rw [h, hsnaps]
    have hp := pairwise_core clock hclock est baseItems baseItems k0
      (batchTails unhandled).length (fun kk h => h)
    exact hp.sublist ((List.sublist_append_left _ _).cons₂ _)
  · rw [h, hsnaps, hlast]
    exact pairwise_core clock hclock est baseItems M.items k0
      (batchTails unhandled).length hkeys

/-! ## Claim theorems -/

set_option maxRecDepth 10000 in
/-- C1: refuting evaluation.  The batcher does not split the pending keys
into disjoint batches of at most 100: for 250 pending keys the loop produces
the three overlapping suffix batches of sizes 250, 150 and 50 (three
upstream batch calls are indeed made, but the first carries all 250 keys
instead of 100). -/
theorem claim_C1_batches_oversized :
    (batchTails (List.range 250)).map List.length = [250, 150, 50] ∧
    (∃ b ∈ batchTails (List.range 250), 100 < b.length) ∧
    (get_current_item_data "w" (List.range 250) [] none (fun _ => none)
        (fun i => (i : Int)) false).requests.length = 3 := by decide

/-- C2 (counterexample): an entry whose age is exactly the TTL is classified
fresh by the code (`is_stale` is false there), while the spec's `>=`
boundary (`is_stale_spec`) classifies it stale. -/
theorem claim_C2_counterexample :
    is_stale (some 0) currentTtlSeconds currentTtlSeconds = false ∧
    is_stale_spec (some 0) currentTtlSeconds currentTtlSeconds = true := by decide

/-- C2 (amended): an entry is classified stale iff its last-refresh
timestamp is unset or now minus the timestamp is strictly greater than the
kind's TTL; in particular an entry aged exactly TTL is fresh, one aged
TTL minus one second is fresh, and one aged TTL plus one second is stale. -/
theorem claim_C2_strict_staleness (t now ttl : Int) :
    (is_stale none now ttl = true) ∧
    (is_stale (some t) now ttl = decide (now - t > ttl)) ∧
    (is_stale (some (now - ttl)) now ttl = false) ∧
    (is_stale (some (now - (ttl - 1))) now ttl = false) ∧
    (is_stale (some (now - (ttl + 1))) now ttl = true) := by
  refine ⟨rfl, ?_, ?_, ?_, ?_⟩ <;> simp only [is_stale] <;>
    first
      | (rw [decide_eq_decide]; omega)
      | (simp only [decide_eq_false_iff_not, decide_eq_true_eq]; omega)

/-- C3 (counterexample): an empty requested key set does not leave the
PerformanceCounter untouched: with a counter row (average 4, total 2) and a
run of duration 2, finalization rewrites the average to
(4 * 2 + 2) / 2 = 5. -/
theorem claim_C3_counterexample :
    (get_current_item_data "w" [] [] (some ⟨some 4, some 2⟩) (fun _ => none)
        (fun i => (i : Int)) false).osd = some ⟨some 5, some 2⟩ ∧
    some (⟨some 5, some 2⟩ : OverallScrapingData) ≠ some ⟨some 4, some 2⟩ := by
  constructor
  · simp only [get_current_item_data, resultsFor, classifyLoop, batchTails, batchTailsAux,
      fetchLoop, pull_current_item_data, mergeLoop, finalizeRun, updateScrapingData,
      truthyQ, truthyN, List.filter_nil, List.length_nil]
    norm_num
  · intro h
    rw [Option.some_inj, OverallScrapingData.mk.injEq, Option.some_inj] at h
    norm_num at h

/-- C4: `get_result` on a job id whose latest snapshot is complete returns
the items mapping and deletes the job from the registry, so a second call
with the same id is NotFound (`none`); while the snapshot is still running
it returns the partial items and leaves the registry unchanged. -/
theorem claim_C4_single_consumption (jobs : List (String × Snapshot))
    (jid : String) (st : Snapshot) (hfound : jobs.lookup jid = some st) :
    (resultHandlerGet jobs jid).1 = some st.items ∧
    (st.complete = true →
      (resultHandlerGet (resultHandlerGet jobs jid).2 jid).1 = none) ∧
    (st.complete = false → (resultHandlerGet jobs jid).2 = jobs) := by
  refine ⟨?_, ?_, ?_⟩
  · simp [resultHandlerGet, hfound]
  · intro hc
    simp [resultHandlerGet, hfound, hc, lookup_filter_out]
  · intro hc
    simp [resultHandlerGet, hfound, hc]

/-- Witness for C4 at a concrete one-job registry. -/
theorem claim_C4_single_consumption_witness :
    (resultHandlerGet [("a", (⟨true, none, 0, [(1, 2)]⟩ : Snapshot))] "a").1
        = some [(1, 2)] ∧
    (resultHandlerGet
        (resultHandlerGet [("a", (⟨true, none, 0, [(1, 2)]⟩ : Snapshot))] "a").2 "a").1
        = none := by
  have h := claim_C4_single_consumption
    [("a", (⟨true, none, 0, [(1, 2)]⟩ : Snapshot))] "a"
    (⟨true, none, 0, [(1, 2)]⟩ : Snapshot) (by rfl)
  exact ⟨h.1, h.2.1 rfl⟩

set_option maxRecDepth 10000 in
/-- C5: evaluations.  First, the spec's key-5 scenario does hold: a job for
the single key 5 whose upstream fails all retries completes with empty items
and creates no cache row.  But the general statement fails: for 101 uncached
keys the first (oversized, failed) batch contains key 100, yet key 100 still
appears in the final items and gets a cache entry, because the second
(overlapping suffix) batch resolves it. -/
theorem claim_C5_failed_batch :
    (let r5 := get_current_item_data "Gaia" [5] [] none (fun _ => none)
        (fun i => (i : Int)) false
     r5.raised = false ∧ r5.snapshots.getLast? = some ⟨true, none, 1, []⟩ ∧
       r5.db = []) ∧
    (let http : String → Option CurrentJson := fun url =>
        if url = "https://universalis.app/api/v2//w/100" then some ⟨7, [(100, 7)]⟩
        else none
     let r := get_current_item_data "w" (List.range 101) [] none http
        (fun i => (i : Int)) false
     100 ∈ (batchTails (List.range 101)).headD [] ∧
     http (currentDataUrl "w" ((batchTails (List.range 101)).headD [])) = none ∧
     r.raised = false ∧
     r.snapshots.getLast? = some ⟨true, none, 2, [(100, 7)]⟩) := by decide

/-- C6: evaluation at the failing input: when the final store commit raises
(cache store unavailable), the generator dies; the freshly fetched key is
rolled back, and no published snapshot ever has `state = complete`, leaving
pollers waiting on a running snapshot forever. -/
theorem claim_C6_store_failure :
    (let r := get_current_item_data "w" [5] [] none
        (fun url => if url = "https://universalis.app/api/v2//w/5" then
          some ⟨9, []⟩ else none)
        (fun i => (i : Int)) true
     r.raised = true ∧ r.snapshots ≠ [] ∧ (∀ s ∈ r.snapshots, s.complete = false) ∧
       r.db = []) := by decide

/-- C7 (counterexample): with no counter row yet, a 2-key job of duration 10
seeds the counter average with the whole duration 10, not the recurrence
value (0 * 0 + 10) / (0 + 2) = 5. -/
theorem claim_C7_counterexample :
    (get_current_item_data "w" [1, 2] [] none (fun _ => none)
        (fun i => 5 * (i : Int)) false).duration = some 10 ∧
    (get_current_item_data "w" [1, 2] [] none (fun _ => none)
        (fun i => 5 * (i : Int)) false).osd = some ⟨some 10, some 2⟩ ∧
    specRecurrenceAvg none none 10 2 = 5 ∧ (5 : ℚ) ≠ 10 := by
  refine ⟨?_, ?_, ?_, by norm_num⟩
  · simp only [get_current_item_data, resultsFor, classifyLoop, batchTails, batchTailsAux,
      fetchLoop, pull_current_item_data, mergeLoop, finalizeRun, updateScrapingData,
      truthyQ, truthyN, currentDataUrl, List.filter_nil]
    norm_num
  · simp only [get_current_item_data, resultsFor, classifyLoop, batchTails, batchTailsAux,
      fetchLoop, pull_current_item_data, mergeLoop, finalizeRun, updateScrapingData,
      truthyQ, truthyN, currentDataUrl, List.filter_nil]
    norm_num
  · simp [specRecurrenceAvg]
    norm_num

/-- C9: evaluation at the failing input: an empty requested key set together
with an existing counter row whose fields are NULL makes finalization divide
by zero; the generator raises and no published snapshot ever has
`state = complete`, so a poller waiting for completion never terminates. -/
theorem claim_C9_empty_request_crash :
    (get_current_item_data "w" [] [] (some ⟨none, none⟩) (fun _ => none)
        (fun i => (i : Int)) false).raised = true ∧
    ∀ s ∈ (get_current_item_data "w" [] [] (some ⟨none, none⟩) (fun _ => none)
        (fun i => (i : Int)) false).snapshots, s.complete = false := by decide

/-- C10: pulling an empty item id list returns the empty mapping and issues
no HTTP request, for both the current and the historical pull. -/
theorem claim_C10_empty_pull {α : Type} (http : String → Option α) (world : String) :
    pull_current_item_data http world [] = (none, []) ∧
    pull_historical_item_data http world [] = (none, []) :=
  ⟨rfl, rfl⟩

/-- C3 (amended): for an empty requested key set the job makes no upstream
request and — when the counter row exists with a truthy total — still
completes with an empty items result, but the PerformanceCounter is not left
unchanged: `total_completed_fetches` stays the same while
`average_duration_seconds` is recomputed by the §3 recurrence with operation
count 0, folding this run's duration into the average. -/
theorem claim_C3_empty_request (world : String) (db : List ItemMarketDataCurrent)
    (d : OverallScrapingData) (http : String → Option CurrentJson) (clock : Nat → Int)
    (htot : truthyN d.total_item_market_pulls = true) :
    ∃ dur : ℚ,
      (get_current_item_data world [] db (some d) http clock false).duration = some dur ∧
      (get_current_item_data world [] db (some d) http clock false).requests = [] ∧
      (get_current_item_data world [] db (some d) http clock false).raised = false ∧
      (∃ s, (get_current_item_data world [] db (some d) http clock false).snapshots.getLast?
          = some s ∧ s.complete = true ∧ s.items = []) ∧
      (get_current_item_data world [] db (some d) http clock false).osd =
        some ⟨some (specRecurrenceAvg d.average_item_market_pull_time_in_seconds
                      d.total_item_market_pulls dur 0),
              d.total_item_market_pulls⟩ := by
  have hnz : d.total_item_market_pulls.getD 0 + 0 ≠ 0 := by
    cases h : d.total_item_market_pulls with
    | none => rw [h] at htot; simp [truthyN] at htot
    | some m =>
      rw [h] at htot
      simp only [truthyN, bne_iff_ne, ne_eq, decide_eq_true_eq] at htot
      simpa using htot
  have htot' : d.total_item_market_pulls = some (d.total_item_market_pulls.getD 0) := by
    cases h : d.total_item_market_pulls with
    | none => rw [h] at htot; simp [truthyN] at htot
    | some m => simp
  refine ⟨(((clock 2 - clock 0 : Int)) : ℚ), ?_, ?_, ?_, ?_, ?_⟩ <;>
    (simp only [get_current_item_data, resultsFor_nil, classifyLoop, batchTails,
      batchTailsAux, fetchLoop, pull_current_item_data, mergeLoop, finalizeRun,
      List.length_nil];
     rw [updateScrapingData_some_eq d _ 0 hnz];
     simp)
  rw [← htot']

/-- Witness for C3 at a concrete empty request against a counter row with
average 4 and total 2. -/
theorem claim_C3_empty_request_witness :
    truthyN (some 2) = true ∧
    (∃ dur : ℚ,
      (get_current_item_data "w" [] []
          (some ⟨some 4, some 2⟩) (fun _ => none) (fun i => (i : Int)) false).duration
        = some dur ∧
      (get_current_item_data "w" [] []
          (some ⟨some 4, some 2⟩) (fun _ => none) (fun i => (i : Int)) false).requests = [] ∧
      (get_current_item_data "w" [] []
          (some ⟨some 4, some 2⟩) (fun _ => none) (fun i => (i : Int)) false).raised = false ∧
      (∃ s, (get_current_item_data "w" [] []
          (some ⟨some 4, some 2⟩) (fun _ => none) (fun i => (i : Int)) false).snapshots.getLast?
          = some s ∧ s.complete = true ∧ s.items = []) ∧
      (get_current_item_data "w" [] []
          (some ⟨some 4, some 2⟩) (fun _ => none) (fun i => (i : Int)) false).osd =
        some ⟨some (specRecurrenceAvg (some 4) (some 2) dur 0), some 2⟩) :=
  ⟨by decide,
   claim_C3_empty_request "w" [] ⟨some 4, some 2⟩ (fun _ => none) (fun i => (i : Int))
     (by decide)⟩

/-- C7 (amended): at finalization of any non-empty request the counter is
updated as follows: when a counter row exists, exactly by the spec's
recurrence (unset average or total contributing zero accumulated duration)
with operation count equal to the number of originally requested keys; when
no counter row exists yet, the freshly created row holds the whole operation
duration as its average — not duration divided by the key count — and the
requested key count as its total. -/
theorem claim_C7_counter_recurrence (world : String) (item_ids : List Nat)
    (db : List ItemMarketDataCurrent) (osd : Option OverallScrapingData)
    (http : String → Option CurrentJson) (clock : Nat → Int)
    (hne : item_ids ≠ []) :
    ∃ dur : ℚ,
      (get_current_item_data world item_ids db osd http clock false).duration = some dur ∧
      (get_current_item_data world item_ids db osd http clock false).raised = false ∧
      (∀ d, osd = some d →
        (get_current_item_data world item_ids db osd http clock false).osd =
          some ⟨some (specRecurrenceAvg d.average_item_market_pull_time_in_seconds
                        d.total_item_market_pulls dur item_ids.length),
                some (d.total_item_market_pulls.getD 0 + item_ids.length)⟩) ∧
      (osd = none →
        (get_current_item_data world item_ids db osd http clock false).osd =
          some ⟨some dur, some item_ids.length⟩) := by
  have hn : item_ids.length ≠ 0 := by simpa [List.length_eq_zero] using hne
  obtain ⟨s0, f, m, e, dur, heq⟩ :=
    get_current_item_data_eq_finalize world item_ids db osd http clock false
  have hok := finalizeRun_ok s0 f m db osd e dur item_ids.length hn
  refine ⟨dur, ?_, ?_, ?_, ?_⟩
  · rw [heq]; exact hok.1
  · rw [heq]; exact hok.2.1
  · intro d hd
    subst hd
    rw [heq, hok.2.2.1, updateScrapingData_some_eq d dur item_ids.length (by omega)]
  · intro hd
    subst hd
    rw [heq, hok.2.2.1]
    rfl

/-- Witness for C7 at a concrete 2-key request against a counter row with
average 4 and total 2. -/
theorem claim_C7_counter_recurrence_witness :
    ([1, 2] : List Nat) ≠ [] ∧
    (∃ dur : ℚ,
      (get_current_item_data "w" [1, 2] [] (some ⟨some 4, some 2⟩) (fun _ => none)
          (fun i => (i : Int)) false).duration = some dur ∧
      (get_current_item_data "w" [1, 2] [] (some ⟨some 4, some 2⟩) (fun _ => none)
          (fun i => (i : Int)) false).raised = false ∧
      (∀ d, (some (⟨some 4, some 2⟩ : OverallScrapingData)) = some d →
        (get_current_item_data "w" [1, 2] [] (some ⟨some 4, some 2⟩) (fun _ => none)
            (fun i => (i : Int)) false).osd =
          some ⟨some (specRecurrenceAvg d.average_item_market_pull_time_in_seconds
                        d.total_item_market_pulls dur ([1, 2] : List Nat).length),
                some (d.total_item_market_pulls.getD 0 + ([1, 2] : List Nat).length)⟩) ∧
      ((some (⟨some 4, some 2⟩ : OverallScrapingData)) = none →
        (get_current_item_data "w" [1, 2] [] (some ⟨some 4, some 2⟩) (fun _ => none)
            (fun i => (i : Int)) false).osd =
          some ⟨some dur, some ([1, 2] : List Nat).length⟩)) :=
  ⟨by decide,
   claim_C7_counter_recurrence "w" [1, 2] [] (some ⟨some 4, some 2⟩) (fun _ => none)
     (fun i => (i : Int)) (by decide)⟩

/-- C8: within a single job the published snapshots are pairwise monotone:
`operation_time_so_far` never decreases from an earlier snapshot to a later
one, and the item key set of a later snapshot contains the key set of every
earlier one (items never shrink), whenever the wall clock is monotone. -/
theorem claim_C8_snapshots_monotone (world : String) (item_ids : List Nat)
    (db : List ItemMarketDataCurrent) (osd : Option OverallScrapingData)
    (http : String → Option CurrentJson) (clock : Nat → Int) (commitFails : Bool)
    (hclock : Monotone clock) :
    ((get_current_item_data world item_ids db osd http clock
        commitFails).snapshots).Pairwise snapLe :=
  pairwise_run http world clock hclock _ _ _ _ db osd _ _ _ commitFails

/-- Witness for C8 at a concrete single-key run under the identity clock. -/
theorem claim_C8_snapshots_monotone_witness :
    ((get_current_item_data "w" [3] [] none (fun _ => none) (fun i => (i : Int))
        false).snapshots).Pairwise snapLe :=
  claim_C8_snapshots_monotone "w" [3] [] none (fun _ => none) (fun i => (i : Int)) false
    (fun _ _ h => Int.ofNat_le.mpr h)
